import Mathlib

/-!
Verification development for `gen_toa_data_v2.py`, a restaurant order-event
generator.  The Python source is embedded shallowly:

* Python floats are modelled as rationals.  Every float the program computes
  here is exact in the rationals (menu prices are integral, perturbations and
  probabilities are decimal literals), so no rounding error is hidden.
* Python `round` (round-half-to-even) is modelled by `pyRoundInt` / `pyRound`.
* The global random source is modelled by explicit draw records.  A call of
  `random.random()` becomes a rational draw, `random.randint(a, b)` becomes a
  raw natural-number draw reduced modulo the size of the range (so the result
  is always in range, and is uniform whenever the raw draw is uniform), and
  `random.choice(xs)` becomes a raw draw reduced modulo the list length.
* The order-id counter file is modelled as `Option Nat` state: `none` means
  the file does not exist yet.
* Timestamps are modelled as integer seconds relative to a fixed epoch
  (for the historical-mode theorems the epoch is 2025-01-01T00:00:00, so
  00:00:30 is `30` and 00:01:00 is `60`); `datetime.isoformat` is injective
  on instants, so equality of instants and of their rendered forms agree.
-/

namespace GenToa

/-- Python `round` to an integer: round half to even (banker's rounding). -/
def pyRoundInt (x : ℚ) : ℤ :=
  if x - ⌊x⌋ < 1/2 then ⌊x⌋
  else if 1/2 < x - ⌊x⌋ then ⌊x⌋ + 1
  else if 2 ∣ ⌊x⌋ then ⌊x⌋ else ⌊x⌋ + 1

/-- Python `round(x, d)`: round to `d` decimal places, half to even. -/
def pyRound (d : ℕ) (x : ℚ) : ℚ := (pyRoundInt (x * 10 ^ d) : ℚ) / 10 ^ d

/-- Decimal digit as a character, `0 ↦ '0'`, ..., `9 ↦ '9'`. -/
def decDigit (d : ℕ) : Char := Char.ofNat (48 + d)

/-- Decimal rendering of a positive natural number (most significant first). -/
def decChars (n : ℕ) : List Char := ((Nat.digits 10 n).reverse).map decDigit

/-- Decimal rendering of a natural number, as Python string formatting does. -/
def decStr (n : ℕ) : String := if n = 0 then "0" else String.mk (decChars n)

/-- MENU_PRICES: the fixed catalog, in Python dict insertion order. -/
def MENU_PRICES : List (String × ℚ) :=
  [("hamburger", 12), ("fried_chicken", 14), ("fries", 6),
   ("drink", 5), ("ice_cream", 7), ("dessert", 8)]

/-- EMPLOYEES pool. -/
def EMPLOYEES : List String :=
  (List.range 15).map (fun i => "employee_" ++ decStr (i + 1))

/-- REGISTERS: register-type keys with their id pools, in insertion order. -/
def REGISTERS : List (String × List String) :=
  [("stationary", (List.range 3).map (fun i => "stationary_" ++ decStr (i + 1))),
   ("drive", (List.range 2).map (fun i => "drive_" ++ decStr (i + 1))),
   ("kiosk", (List.range 2).map (fun i => "kiosk_" ++ decStr (i + 1)))]

/-- WEATHER_CONDITIONS. -/
def WEATHER_CONDITIONS : List String := ["sunny", "cloudy", "rainy", "snowy"]

/-- Python `random.choice xs`: a uniform element of `xs`, modelled by
reducing a raw draw modulo the length (uniform raw draw gives uniform pick). -/
def pyChoice (xs : List String) (k : ℕ) : String := xs.getD (k % xs.length) ""

/-- Python `random.randint a b`: uniform integer in `[a, b]`, modelled by
reducing a raw draw modulo the size of the range. -/
def randint (a b : ℕ) (k : ℕ) : ℕ := a + k % (b - a + 1)

/-- The weather state dictionary. -/
structure Weather where
  temperature : ℚ
  humidity : ℚ
  condition : String
deriving DecidableEq

/-- Random draws consumed by one `WeatherSimulator.step()` call: the two
uniform perturbations, the `random.random()` condition-change draw, and the
raw `random.choice` draw for the replacement condition. -/
structure WeatherDraw where
  dT : ℚ
  dH : ℚ
  pc : ℚ
  cond : ℕ

/-- Default initial weather state of `WeatherSimulator.__init__`. -/
def WeatherSimulator.init : Weather :=
  { temperature := 20, humidity := 50, condition := "sunny" }

/-- One `WeatherSimulator.step()` call.  The Python method mutates
`self.current` and returns `dict(self.current)`; in this pure embedding the
returned snapshot and the successor state are the same immutable value. -/
def WeatherSimulator.step (w : Weather) (d : WeatherDraw) : Weather :=
  { temperature := pyRound 1 (min (max (w.temperature + d.dT) (-5)) 35)
    humidity := pyRound 1 (min (max (w.humidity + d.dH) 20) 90)
    condition :=
      if d.pc < 1/20 then pyChoice WEATHER_CONDITIONS d.cond else w.condition }

/-- Per-item inclusion probability of `generate_items` (base 0.5, fries 0.7,
ice cream and dessert 0.3). -/
def item_prob (item : String) : ℚ :=
  if item = "fries" then 7/10
  else if item = "ice_cream" ∨ item = "dessert" then 3/10
  else 1/2

/-- The `for item, price in MENU_PRICES.items()` loop of `generate_items`,
rendered as structural recursion over the catalog.  `g i` supplies the random
draws for the i-th catalog entry: the `random.random()` inclusion draw and
the raw `randint` draw.  The running total is accumulated alongside the item
dictionary exactly as in the source. -/
def generate_items_loop (order_size : String) (g : ℕ → ℚ × ℕ) :
    ℕ → List (String × ℚ) → List (String × ℕ) × ℚ
  | _, [] => ([], 0)
  | i, (item, price) :: rest =>
    if (g i).1 < item_prob item then
      ((item, randint 1 (if order_size = "small" then 2 else 5) (g i).2) ::
          (generate_items_loop order_size g (i + 1) rest).1,
        (randint 1 (if order_size = "small" then 2 else 5) (g i).2 : ℚ) * price +
          (generate_items_loop order_size g (i + 1) rest).2)
    else generate_items_loop order_size g (i + 1) rest

/-- Python `generate_items(order_size)`: the item mapping together with the
total rounded to 2 decimal places. -/
def generate_items (order_size : String) (g : ℕ → ℚ × ℕ) :
    List (String × ℕ) × ℚ :=
  ((generate_items_loop order_size g 0 MENU_PRICES).1,
   pyRound 2 (generate_items_loop order_size g 0 MENU_PRICES).2)

/-- Python `load_last_order_id()`: reads the counter file, creating it with
content `0` when absent.  Returns the value read and the resulting file
state. -/
def load_last_order_id : Option ℕ → ℕ × Option ℕ
  | none => (0, some 0)
  | some n => (n, some n)

/-- Python `save_last_order_id(last_id)`: overwrites the counter file. -/
def save_last_order_id (last_id : ℕ) : Option ℕ := some last_id

/-- Python `next_order_id()`: load, increment, save, format. -/
def next_order_id (s : Option ℕ) : String × Option ℕ :=
  ("order_" ++ decStr ((load_last_order_id s).1 + 1),
   save_last_order_id ((load_last_order_id s).1 + 1))

/-- Random draws consumed by one `create_order` call (beyond the items). -/
structure OrderDraw where
  regType : ℕ
  regId : ℕ
  emp : ℕ
  sizeU : ℚ
  items : ℕ → ℚ × ℕ

/-- One generated order record.  Timestamp fields hold the instant itself
(integer seconds); the source stores `ts.isoformat()` for both `timestamp`
and `processing_time`. -/
structure OrderRecord where
  order_id : String
  timestamp : ℤ
  restaurant_id : String
  register_type : String
  register_id : String
  employee_id : String
  order_size : String
  items : List (String × ℕ)
  total_amount : ℚ
  processing_time : ℤ
  IsWeather : Weather

/-- Python `create_order(ts, weather)`.  `random.choices` over
weights `[0.6, 0.4]` is modelled by inverse-CDF sampling of a unit draw:
`small` when the draw is below 0.6, else `large`.  Returns the record and
the new counter-file state. -/
def create_order (ts : ℤ) (weather : Weather) (s : Option ℕ) (d : OrderDraw) :
    OrderRecord × Option ℕ :=
  ({ order_id := (next_order_id s).1
     timestamp := ts
     restaurant_id := "restaurant_001"
     register_type := pyChoice (REGISTERS.map Prod.fst) d.regType
     register_id :=
       pyChoice ((REGISTERS.lookup (pyChoice (REGISTERS.map Prod.fst) d.regType)).getD [])
         d.regId
     employee_id := pyChoice EMPLOYEES d.emp
     order_size := if d.sizeU < 3/5 then "small" else "large"
     items := (generate_items (if d.sizeU < 3/5 then "small" else "large") d.items).1
     total_amount := (generate_items (if d.sizeU < 3/5 then "small" else "large") d.items).2
     processing_time := ts
     IsWeather := weather }, (next_order_id s).2)

/-- Random draws consumed by one iteration of a driver loop: one weather
step and one order creation. -/
structure StepDraw where
  weather : WeatherDraw
  order : OrderDraw

/-- The `while ts <= end` loop of `historical_mode`, with explicit fuel:
`none` means the loop is still running after `fuel` iterations, `some rs`
means it finished having emitted `rs`.  Each iteration advances the weather,
creates an order at the current timestamp, and advances `ts` by the
interval. -/
def historical_loop (endT interval : ℤ) (g : ℕ → StepDraw) :
    ℕ → ℤ → Weather → Option ℕ → ℕ → Option (List OrderRecord)
  | 0, ts, _, _, _ => if ts ≤ endT then none else some []
  | fuel + 1, ts, w, s, i =>
    if ts ≤ endT then
      match historical_loop endT interval g fuel (ts + interval)
          (WeatherSimulator.step w (g i).weather)
          (create_order ts (WeatherSimulator.step w (g i).weather) s (g i).order).2
          (i + 1) with
      | none => none
      | some rs =>
        some ((create_order ts (WeatherSimulator.step w (g i).weather) s (g i).order).1 :: rs)
    else some []

/-- Python `historical_mode(start, end, interval_sec, output)`, up to the
CSV writing: the sequence of records emitted.  The counter-file state `s` is
whatever the file holds when the mode starts. -/
def historical_mode (fuel : ℕ) (start endT interval : ℤ) (s : Option ℕ)
    (g : ℕ → StepDraw) : Option (List OrderRecord) :=
  historical_loop endT interval g fuel start WeatherSimulator.init s 0

/-- Catalog price of an item, looked up in MENU_PRICES. -/
def priceOf (item : String) : ℚ := (MENU_PRICES.lookup item).getD 0

/-- Sum over an item mapping of quantity times catalog price. -/
def itemsTotal (items : List (String × ℕ)) : ℚ :=
  (items.map (fun p => (p.2 : ℚ) * priceOf p.1)).sum

/-- Timestamp skeleton of the historical loop: the sequence of timestamps
the loop visits, with the same fuel discipline as `historical_loop`. -/
def tsLoop : ℕ → ℤ → ℤ → ℤ → Option (List ℤ)
  | 0, ts, endT, _ => if ts ≤ endT then none else some []
  | f + 1, ts, endT, iv =>
    if ts ≤ endT then Option.map (fun l => ts :: l) (tsLoop f (ts + iv) endT iv)
    else some []

/-- One event in the life of the order-id allocator: an order creation, or a
process restart (the counter file on disk survives a restart unchanged). -/
inductive AllocOp
  | create
  | restart

/-- Run a sequence of creations and restarts against the allocator, starting
from counter-file state `s`: the identifiers returned by `next_order_id`,
in order, and the final file state. -/
def runAlloc : List AllocOp → Option ℕ → List String × Option ℕ
  | [], s => ([], s)
  | AllocOp.create :: ops, s =>
    ((next_order_id s).1 :: (runAlloc ops (next_order_id s).2).1,
      (runAlloc ops (next_order_id s).2).2)
  | AllocOp.restart :: ops, s => runAlloc ops s

/-- The numeric counter values behind the identifiers of `runAlloc`. -/
def allocNums : List AllocOp → Option ℕ → List ℕ
  | [], _ => []
  | AllocOp.create :: ops, s =>
    ((load_last_order_id s).1 + 1) ::
      allocNums ops (some ((load_last_order_id s).1 + 1))
  | AllocOp.restart :: ops, s => allocNums ops s

/-- Numeric value of a decimal digit character. -/
def decVal (c : Char) : ℕ := c.toNat - 48

/-- Decimal parsing, the left inverse of `decStr`. -/
def decodeStr (s : String) : ℕ := Nat.ofDigits 10 ((s.data.map decVal).reverse)

/-- Numeric part of an order identifier of the form `order_` then digits. -/
def orderIdNum (s : String) : ℕ := decodeStr (String.mk (s.data.drop 6))

/-- A fixed random-draw stream with all raw draws zero, used to exercise the
theorems on concrete inputs. -/
def gZero : ℕ → StepDraw :=
  fun _ => ⟨⟨0, 0, 0, 0⟩, ⟨0, 0, 0, 0, fun _ => (0, 0)⟩⟩

/-- A concrete weather draw used to exercise the step theorem. -/
def d0 : WeatherDraw := ⟨1/10, 1/10, 0, 0⟩

/-- Rounding half to even sends a value between two integer bounds to an
integer between the same bounds. -/
theorem pyRoundInt_mem (a b : ℤ) (x : ℚ) (h1 : (a : ℚ) ≤ x) (h2 : x ≤ (b : ℚ)) :
    a ≤ pyRoundInt x ∧ pyRoundInt x ≤ b := by
  have hfa : a ≤ ⌊x⌋ := Int.le_floor.mpr h1
  have hfb : ⌊x⌋ ≤ b := by
    have h : (⌊x⌋ : ℚ) ≤ (b : ℚ) := (Int.floor_le x).trans h2
    exact_mod_cast h
  have hfx : (⌊x⌋ : ℚ) ≤ x := Int.floor_le x
  unfold pyRoundInt
  split_ifs with hc1 hc2 hc3
  · exact ⟨hfa, hfb⟩
  · refine ⟨by omega, ?_⟩
    have hxb : (⌊x⌋ : ℚ) + 1/2 < (b : ℚ) := by
      have := le_trans (le_of_lt (by linarith : (⌊x⌋ : ℚ) + 1/2 < x)) h2
      linarith [lt_of_lt_of_le (show (⌊x⌋ : ℚ) + 1/2 < x by linarith) h2]
    have : (⌊x⌋ : ℚ) < (b : ℚ) := by linarith
    have hlt : ⌊x⌋ < b := by exact_mod_cast this
    omega
  · exact ⟨hfa, hfb⟩
  · refine ⟨by omega, ?_⟩
    have hge : (1 : ℚ)/2 ≤ x - ⌊x⌋ := le_of_not_lt hc1
    have : (⌊x⌋ : ℚ) < (b : ℚ) := by linarith
    have hlt : ⌊x⌋ < b := by exact_mod_cast this
    omega

/-- Unfolded form of rounding to one decimal place. -/
theorem pyRound_one_eq (x : ℚ) : pyRound 1 x = (pyRoundInt (x * 10) : ℚ) / 10 := by
  simp [pyRound]

/-- Rounding to one decimal place produces a multiple of one tenth. -/
theorem pyRound_one_den (x : ℚ) : ∃ k : ℤ, pyRound 1 x = (k : ℚ) / 10 :=
  ⟨pyRoundInt (x * 10), pyRound_one_eq x⟩

/-- Rounding to one decimal place sends a value between two integer bounds
to a value between the same bounds. -/
theorem pyRound_one_mem (a b : ℤ) (x : ℚ) (h1 : (a : ℚ) ≤ x) (h2 : x ≤ (b : ℚ)) :
    (a : ℚ) ≤ pyRound 1 x ∧ pyRound 1 x ≤ (b : ℚ) := by
  have h := pyRoundInt_mem (10 * a) (10 * b) (x * 10)
    (by push_cast; linarith) (by push_cast; linarith)
  rw [pyRound_one_eq]
  constructor
  · have : ((10 * a : ℤ) : ℚ) ≤ (pyRoundInt (x * 10) : ℚ) := by exact_mod_cast h.1
    push_cast at this
    linarith
  · have : (pyRoundInt (x * 10) : ℚ) ≤ ((10 * b : ℤ) : ℚ) := by exact_mod_cast h.2
    push_cast at this
    linarith

/-- The temperature produced by a weather step is always in the clamped
range, whatever the previous state and whatever the draws. -/
theorem step_temperature_mem (w : Weather) (d : WeatherDraw) :
    -5 ≤ (WeatherSimulator.step w d).temperature ∧
      (WeatherSimulator.step w d).temperature ≤ 35 := by
  have hlo : (-5 : ℚ) ≤ min (max (w.temperature + d.dT) (-5)) 35 :=
    le_min (le_max_right _ _) (by norm_num)
  have hhi : min (max (w.temperature + d.dT) (-5)) 35 ≤ 35 := min_le_right _ _
  have h := pyRound_one_mem (-5) 35 (min (max (w.temperature + d.dT) (-5)) 35)
    (by exact_mod_cast hlo) (by exact_mod_cast hhi)
  constructor
  · have := h.1
    norm_num at this ⊢
    simpa [WeatherSimulator.step] using this
  · have := h.2
    norm_num at this ⊢
    simpa [WeatherSimulator.step] using this

/-- The humidity produced by a weather step is always in the clamped range,
whatever the previous state and whatever the draws. -/
theorem step_humidity_mem (w : Weather) (d : WeatherDraw) :
    20 ≤ (WeatherSimulator.step w d).humidity ∧
      (WeatherSimulator.step w d).humidity ≤ 90 := by
  have hlo : (20 : ℚ) ≤ min (max (w.humidity + d.dH) 20) 90 :=
    le_min (le_max_right _ _) (by norm_num)
  have hhi : min (max (w.humidity + d.dH) 20) 90 ≤ 90 := min_le_right _ _
  have h := pyRound_one_mem 20 90 (min (max (w.humidity + d.dH) 20) 90)
    (by exact_mod_cast hlo) (by exact_mod_cast hhi)
  constructor
  · have := h.1
    norm_num at this ⊢
    simpa [WeatherSimulator.step] using this
  · have := h.2
    norm_num at this ⊢
    simpa [WeatherSimulator.step] using this

/-- C2: for every initial weather state with temperature in the interval
from -5 to 35 and humidity in the interval from 20 to 90, after any finite
sequence of WeatherSimulator step calls, under any random draws, the
temperature is still in the first interval and the humidity in the second. -/
theorem C2_weather_bounds (w : Weather)
    (hT : -5 ≤ w.temperature ∧ w.temperature ≤ 35)
    (hH : 20 ≤ w.humidity ∧ w.humidity ≤ 90)
    (ds : List WeatherDraw) :
    (-5 ≤ (ds.foldl WeatherSimulator.step w).temperature ∧
      (ds.foldl WeatherSimulator.step w).temperature ≤ 35) ∧
    (20 ≤ (ds.foldl WeatherSimulator.step w).humidity ∧
      (ds.foldl WeatherSimulator.step w).humidity ≤ 90) := by
  induction ds generalizing w with
  | nil => exact ⟨hT, hH⟩
  | cons d ds ih =>
    simpa using ih (WeatherSimulator.step w d)
      (step_temperature_mem w d) (step_humidity_mem w d)

/-- Witness for C2 at the default initial state and a one-step sequence. -/
theorem C2_weather_bounds_witness :
    ((-5 ≤ WeatherSimulator.init.temperature ∧
        WeatherSimulator.init.temperature ≤ 35) ∧
      (20 ≤ WeatherSimulator.init.humidity ∧
        WeatherSimulator.init.humidity ≤ 90)) ∧
    ((-5 ≤ ([d0].foldl WeatherSimulator.step WeatherSimulator.init).temperature ∧
        ([d0].foldl WeatherSimulator.step WeatherSimulator.init).temperature ≤ 35) ∧
      (20 ≤ ([d0].foldl WeatherSimulator.step WeatherSimulator.init).humidity ∧
        ([d0].foldl WeatherSimulator.step WeatherSimulator.init).humidity ≤ 90)) :=
  ⟨⟨⟨by norm_num [WeatherSimulator.init], by norm_num [WeatherSimulator.init]⟩,
    ⟨by norm_num [WeatherSimulator.init], by norm_num [WeatherSimulator.init]⟩⟩,
   C2_weather_bounds WeatherSimulator.init
     ⟨by norm_num [WeatherSimulator.init], by norm_num [WeatherSimulator.init]⟩
     ⟨by norm_num [WeatherSimulator.init], by norm_num [WeatherSimulator.init]⟩ [d0]⟩

/-- Every entry of the concrete catalog has the price that `priceOf` looks
up for its name. -/
theorem menu_prices_lookup : ∀ p ∈ MENU_PRICES, priceOf p.1 = p.2 := by
  intro p hp
  fin_cases hp <;> rfl

/-- The running total accumulated by the item loop equals the sum over the
produced item mapping of quantity times looked-up price, for any catalog
whose entries agree with `priceOf`. -/
theorem generate_items_loop_total (os : String) (g : ℕ → ℚ × ℕ) :
    ∀ (catalog : List (String × ℚ)) (i : ℕ),
      (∀ p ∈ catalog, priceOf p.1 = p.2) →
      itemsTotal (generate_items_loop os g i catalog).1 =
        (generate_items_loop os g i catalog).2 := by
  intro catalog
  induction catalog with
  | nil => intro i _; simp [generate_items_loop, itemsTotal]
  | cons p rest ih =>
    intro i h
    obtain ⟨item, price⟩ := p
    have hp : priceOf item = price := h (item, price) (by simp)
    have hr := ih (i + 1) (fun q hq => h q (List.mem_cons_of_mem _ hq))
    by_cases hc : (g i).1 < item_prob item
    · simp only [generate_items_loop, if_pos hc]
      simp only [itemsTotal, List.map_cons, List.sum_cons] at hr ⊢
      rw [hp, hr]
    · simpa only [generate_items_loop, if_neg hc] using hr

/-- Every quantity produced by the item loop lies between 1 and the size
bound selected by the order-size argument. -/
theorem generate_items_loop_qty (os : String) (g : ℕ → ℚ × ℕ) :
    ∀ (catalog : List (String × ℚ)) (i : ℕ) (p : String × ℕ),
      p ∈ (generate_items_loop os g i catalog).1 →
      1 ≤ p.2 ∧ p.2 ≤ (if os = "small" then 2 else 5) := by
  intro catalog
  induction catalog with
  | nil => intro i p hp; simp [generate_items_loop] at hp
  | cons q rest ih =>
    intro i p hp
    obtain ⟨item, price⟩ := q
    by_cases hc : (g i).1 < item_prob item
    · simp only [generate_items_loop, if_pos hc, List.mem_cons] at hp
      rcases hp with h | h
      · subst h
        simp only [randint]
        by_cases hs : os = "small" <;> simp [hs] <;> omega
      · exact ih (i + 1) p h
    · simp only [generate_items_loop, if_neg hc] at hp
      exact ih (i + 1) p hp

/-- C1: the total returned by generate_items, for every order size and all
random draws, is exactly the sum over the included items of quantity times
catalog price, rounded to 2 decimal places, and the same equality holds
between the total_amount and items fields of every record built by
create_order. -/
theorem C1_total_amount :
    (∀ (os : String) (g : ℕ → ℚ × ℕ),
      (generate_items os g).2 = pyRound 2 (itemsTotal (generate_items os g).1)) ∧
    (∀ (ts : ℤ) (w : Weather) (s : Option ℕ) (d : OrderDraw),
      ((create_order ts w s d).1).total_amount =
        pyRound 2 (itemsTotal ((create_order ts w s d).1).items)) := by
  have key : ∀ (os : String) (g : ℕ → ℚ × ℕ),
      (generate_items os g).2 = pyRound 2 (itemsTotal (generate_items os g).1) := by
    intro os g
    simp only [generate_items]
    rw [generate_items_loop_total os g MENU_PRICES 0 menu_prices_lookup]
  exact ⟨key, fun ts w s d => key _ _⟩

/-- C3: for every random draw, quantities in a small order are integers
between 1 and 2 and quantities in a large order are integers between 1 and
5; and within each range the modelled randint hits every value for exactly
one raw draw class, i.e. the draw is uniform. -/
theorem C3_quantity_ranges :
    (∀ (g : ℕ → ℚ × ℕ) (p : String × ℕ),
      p ∈ (generate_items "small" g).1 → 1 ≤ p.2 ∧ p.2 ≤ 2) ∧
    (∀ (g : ℕ → ℚ × ℕ) (p : String × ℕ),
      p ∈ (generate_items "large" g).1 → 1 ≤ p.2 ∧ p.2 ≤ 5) ∧
    (∀ v : ℕ, 1 ≤ v → v ≤ 2 →
      ((List.range 2).filter (fun k => randint 1 2 k = v)).length = 1) ∧
    (∀ v : ℕ, 1 ≤ v → v ≤ 5 →
      ((List.range 5).filter (fun k => randint 1 5 k = v)).length = 1) := by
  refine ⟨?_, ?_, ?_, ?_⟩
  · intro g p hp
    have := generate_items_loop_qty "small" g MENU_PRICES 0 p hp
    simpa using this
  · intro g p hp
    have := generate_items_loop_qty "large" g MENU_PRICES 0 p hp
    simpa using this
  · intro v h1 h2
    interval_cases v <;> decide
  · intro v h1 h2
    interval_cases v <;> decide

/-- Witness for C3 at a concrete draw stream that includes every item with
quantity 2. -/
theorem C3_quantity_ranges_witness :
    (("hamburger", 2) ∈ (generate_items "small" (fun _ => (0, 1))).1) ∧
    (1 ≤ (("hamburger", 2) : String × ℕ).2 ∧ (("hamburger", 2) : String × ℕ).2 ≤ 2) ∧
    ((1 : ℕ) ≤ 1 ∧ (1 : ℕ) ≤ 2 ∧
      ((List.range 2).filter (fun k => randint 1 2 k = 1)).length = 1) :=
  ⟨by simp [generate_items, generate_items_loop, MENU_PRICES, item_prob, randint],
   C3_quantity_ranges.1 (fun _ => (0, 1)) ("hamburger", 2)
     (by simp [generate_items, generate_items_loop, MENU_PRICES, item_prob, randint]),
   by norm_num, by norm_num,
   C3_quantity_ranges.2.2.1 1 (by norm_num) (by norm_num)⟩

/-- C8: in every record built by create_order, the processing_time field is
identical to the timestamp field. -/
theorem C8_processing_time_eq_timestamp (ts : ℤ) (w : Weather) (s : Option ℕ)
    (d : OrderDraw) :
    ((create_order ts w s d).1).processing_time =
      ((create_order ts w s d).1).timestamp := rfl

/-- If the item loop produced no items, its accumulated total is zero. -/
theorem generate_items_loop_empty (os : String) (g : ℕ → ℚ × ℕ) :
    ∀ (catalog : List (String × ℚ)) (i : ℕ),
      (generate_items_loop os g i catalog).1 = [] →
      (generate_items_loop os g i catalog).2 = 0 := by
  intro catalog
  induction catalog with
  | nil => intro i _; simp [generate_items_loop]
  | cons q rest ih =>
    intro i h
    obtain ⟨item, price⟩ := q
    by_cases hc : (g i).1 < item_prob item
    · simp [generate_items_loop, if_pos hc] at h
    · simp only [generate_items_loop, if_neg hc] at h ⊢
      exact ih (i + 1) h

/-- C9: generate_items is a total function; there are random draws under
which it returns an empty item mapping, and whenever the item mapping is
empty the returned total is exactly 0. -/
theorem C9_empty_order (os : String) :
    (∃ g : ℕ → ℚ × ℕ, (generate_items os g).1 = []) ∧
    (∀ g : ℕ → ℚ × ℕ,
      (generate_items os g).1 = [] → (generate_items os g).2 = 0) := by
  constructor
  · refine ⟨fun _ => (1, 0), ?_⟩
    simp only [generate_items, generate_items_loop, MENU_PRICES, item_prob]
    simp
    norm_num
  · intro g h
    simp only [generate_items] at h ⊢
    rw [generate_items_loop_empty os g MENU_PRICES 0 h]
    norm_num [pyRound, pyRoundInt]

/-- Witness for C9 at order size small and the all-excluding draw stream. -/
theorem C9_empty_order_witness :
    (generate_items "small" (fun _ => (1, 0))).1 = [] ∧
    (generate_items "small" (fun _ => (1, 0))).2 = 0 := by
  have h : (generate_items "small" (fun _ => ((1 : ℚ), (0 : ℕ)))).1 = [] := by
    simp only [generate_items, generate_items_loop, MENU_PRICES, item_prob]
    simp
    norm_num
  exact ⟨h, (C9_empty_order "small").2 _ h⟩

/-- The item loop does not depend on the order-size argument except through
the test against the exact string small. -/
theorem generate_items_loop_not_small (os : String) (g : ℕ → ℚ × ℕ)
    (h : os ≠ "small") :
    ∀ (catalog : List (String × ℚ)) (i : ℕ),
      generate_items_loop os g i catalog = generate_items_loop "large" g i catalog := by
  intro catalog
  induction catalog with
  | nil => intro i; rfl
  | cons q rest ih =>
    intro i
    obtain ⟨item, price⟩ := q
    by_cases hc : (g i).1 < item_prob item
    · simp only [generate_items_loop, if_pos hc, ih (i + 1), if_neg h,
        if_neg (by decide : ¬("large" = "small"))]
    · simp only [generate_items_loop, if_neg hc, ih (i + 1)]

/-- C10: generate_items performs no validation of order_size: for every
argument other than the exact string small it behaves exactly as for large,
drawing quantities from 1 to 5, and returns normally. -/
theorem C10_no_size_validation (os : String) (g : ℕ → ℚ × ℕ)
    (h : os ≠ "small") :
    generate_items os g = generate_items "large" g ∧
    ∀ p : String × ℕ, p ∈ (generate_items os g).1 → 1 ≤ p.2 ∧ p.2 ≤ 5 := by
  constructor
  · simp only [generate_items, generate_items_loop_not_small os g h]
  · intro p hp
    have := generate_items_loop_qty os g MENU_PRICES 0 p hp
    rwa [if_neg h] at this

/-- Witness for C10 at a misspelled order size. -/
theorem C10_no_size_validation_witness :
    ("medium" ≠ "small") ∧
    (generate_items "medium" (fun _ => (0, 0)) =
        generate_items "large" (fun _ => (0, 0)) ∧
      ∀ p : String × ℕ, p ∈ (generate_items "medium" (fun _ => (0, 0))).1 →
        1 ≤ p.2 ∧ p.2 ≤ 5) :=
  ⟨by decide, C10_no_size_validation "medium" (fun _ => (0, 0)) (by decide)⟩

/-- Perturbing a one-decimal value within its clamping range by at most
m tenths, clamping, and rounding to one decimal place moves it by at most
m tenths. -/
theorem pyRound_clamp_close (lo hi t dT : ℚ) (k m : ℤ)
    (hlo : lo ≤ t) (hhi : t ≤ hi) (ht : t = (k : ℚ) / 10)
    (h1 : -((m : ℚ) / 10) ≤ dT) (h2 : dT ≤ (m : ℚ) / 10) :
    t - (m : ℚ) / 10 ≤ pyRound 1 (min (max (t + dT) lo) hi) ∧
      pyRound 1 (min (max (t + dT) lo) hi) ≤ t + (m : ℚ) / 10 := by
  have hm' : (0 : ℚ) ≤ (m : ℚ) / 10 := by linarith
  have hy1 : t - (m : ℚ) / 10 ≤ min (max (t + dT) lo) hi := by
    apply le_min
    · exact le_trans (by linarith) (le_max_left _ _)
    · linarith
  have hy2 : min (max (t + dT) lo) hi ≤ t + (m : ℚ) / 10 := by
    refine le_trans (min_le_left _ _) (max_le (by linarith) (by linarith))
  have hb := pyRoundInt_mem (k - m) (k + m) (min (max (t + dT) lo) hi * 10)
    (by push_cast; linarith) (by push_cast; linarith)
  have hb1 : ((k - m : ℤ) : ℚ) ≤ (pyRoundInt (min (max (t + dT) lo) hi * 10) : ℚ) := by
    exact_mod_cast hb.1
  have hb2 : (pyRoundInt (min (max (t + dT) lo) hi * 10) : ℚ) ≤ ((k + m : ℤ) : ℚ) := by
    exact_mod_cast hb.2
  rw [pyRound_one_eq]
  push_cast at hb1 hb2
  constructor
  · linarith
  · linarith

/-- The modelled uniform choice over the four conditions always yields one
of the four conditions. -/
theorem pyChoice_WEATHER_mem (k : ℕ) :
    pyChoice WEATHER_CONDITIONS k ∈ WEATHER_CONDITIONS := by
  have h : k % 4 = 0 ∨ k % 4 = 1 ∨ k % 4 = 2 ∨ k % 4 = 3 := by omega
  rcases h with h | h | h | h <;> simp [pyChoice, WEATHER_CONDITIONS, h]

/-- Each of the four conditions is produced by exactly one residue class of
raw draws: the modelled choice is uniform. -/
theorem pyChoice_WEATHER_uniform :
    ∀ c ∈ WEATHER_CONDITIONS,
      ((List.range 4).filter (fun k => pyChoice WEATHER_CONDITIONS k = c)).length = 1 := by
  decide

/-- Every condition, in particular the current one, can be produced by the
replacement draw: no exclusion of the current condition. -/
theorem pyChoice_WEATHER_surj (c : String) (hc : c ∈ WEATHER_CONDITIONS) :
    ∃ k : ℕ, pyChoice WEATHER_CONDITIONS k = c := by
  fin_cases hc
  exacts [⟨0, by decide⟩, ⟨1, by decide⟩, ⟨2, by decide⟩, ⟨3, by decide⟩]

/-- C4: a weather step perturbs the temperature by at most 0.2 and the
humidity by at most 0.5 (clamped to the bounds), returns numeric fields
rounded to 1 decimal place (multiples of one tenth), replaces the condition
exactly when the unit draw is below 0.05 by a uniform choice among the four
conditions (possibly the current one, which is always reachable), and
otherwise leaves the condition unchanged.  The embedding is pure, so the
returned snapshot is a copy that later steps cannot mutate. -/
theorem C4_weather_step_spec (w : Weather) (d : WeatherDraw)
    (hT : -5 ≤ w.temperature ∧ w.temperature ≤ 35)
    (hH : 20 ≤ w.humidity ∧ w.humidity ≤ 90)
    (hTk : ∃ k : ℤ, w.temperature = (k : ℚ) / 10)
    (hHk : ∃ k : ℤ, w.humidity = (k : ℚ) / 10)
    (hdT : -(1/5) ≤ d.dT ∧ d.dT ≤ 1/5)
    (hdH : -(1/2) ≤ d.dH ∧ d.dH ≤ 1/2)
    (hc : w.condition ∈ WEATHER_CONDITIONS) :
    |(WeatherSimulator.step w d).temperature - w.temperature| ≤ 1/5 ∧
    |(WeatherSimulator.step w d).humidity - w.humidity| ≤ 1/2 ∧
    (∃ k : ℤ, (WeatherSimulator.step w d).temperature = (k : ℚ) / 10) ∧
    (∃ k : ℤ, (WeatherSimulator.step w d).humidity = (k : ℚ) / 10) ∧
    (d.pc < 1/20 →
      (WeatherSimulator.step w d).condition = pyChoice WEATHER_CONDITIONS d.cond) ∧
    (¬ d.pc < 1/20 → (WeatherSimulator.step w d).condition = w.condition) ∧
    (∀ k : ℕ, pyChoice WEATHER_CONDITIONS k ∈ WEATHER_CONDITIONS) ∧
    (∀ c ∈ WEATHER_CONDITIONS,
      ((List.range 4).filter (fun k => pyChoice WEATHER_CONDITIONS k = c)).length = 1) ∧
    (∃ k : ℕ, pyChoice WEATHER_CONDITIONS k = w.condition) := by
  obtain ⟨kt, hkt⟩ := hTk
  obtain ⟨kh, hkh⟩ := hHk
  have e2 : ((2 : ℤ) : ℚ) / 10 = 1/5 := by norm_num
  have e5 : ((5 : ℤ) : ℚ) / 10 = 1/2 := by norm_num
  have ht := pyRound_clamp_close (-5) 35 w.temperature d.dT kt 2 hT.1 hT.2 hkt
    (by rw [e2]; exact hdT.1) (by rw [e2]; exact hdT.2)
  have hh := pyRound_clamp_close 20 90 w.humidity d.dH kh 5 hH.1 hH.2 hkh
    (by rw [e5]; exact hdH.1) (by rw [e5]; exact hdH.2)
  rw [e2] at ht
  rw [e5] at hh
  refine ⟨?_, ?_, ?_, ?_, ?_, ?_, pyChoice_WEATHER_mem, pyChoice_WEATHER_uniform,
    pyChoice_WEATHER_surj w.condition hc⟩
  · have hs : (WeatherSimulator.step w d).temperature =
        pyRound 1 (min (max (w.temperature + d.dT) (-5)) 35) := rfl
    rw [hs, abs_le]
    exact ⟨by linarith [ht.1], by linarith [ht.2]⟩
  · have hs : (WeatherSimulator.step w d).humidity =
        pyRound 1 (min (max (w.humidity + d.dH) 20) 90) := rfl
    rw [hs, abs_le]
    exact ⟨by linarith [hh.1], by linarith [hh.2]⟩
  · exact pyRound_one_den (min (max (w.temperature + d.dT) (-5)) 35)
  · exact pyRound_one_den (min (max (w.humidity + d.dH) 20) 90)
  · intro h
    have hs : (WeatherSimulator.step w d).condition =
        if d.pc < 1/20 then pyChoice WEATHER_CONDITIONS d.cond else w.condition := rfl
    rw [hs, if_pos h]
  · intro h
    have hs : (WeatherSimulator.step w d).condition =
        if d.pc < 1/20 then pyChoice WEATHER_CONDITIONS d.cond else w.condition := rfl
    rw [hs, if_neg h]

/-- Witness for C4 at the default initial state and a concrete draw. -/
theorem C4_weather_step_spec_witness :
    ((-5 : ℚ) ≤ WeatherSimulator.init.temperature ∧
        WeatherSimulator.init.temperature ≤ 35) ∧
    ((20 : ℚ) ≤ WeatherSimulator.init.humidity ∧
        WeatherSimulator.init.humidity ≤ 90) ∧
    (∃ k : ℤ, WeatherSimulator.init.temperature = (k : ℚ) / 10) ∧
    (∃ k : ℤ, WeatherSimulator.init.humidity = (k : ℚ) / 10) ∧
    (-(1/5 : ℚ) ≤ d0.dT ∧ d0.dT ≤ 1/5) ∧
    (-(1/2 : ℚ) ≤ d0.dH ∧ d0.dH ≤ 1/2) ∧
    (WeatherSimulator.init.condition ∈ WEATHER_CONDITIONS) ∧
    (|(WeatherSimulator.step WeatherSimulator.init d0).temperature -
        WeatherSimulator.init.temperature| ≤ 1/5 ∧
      |(WeatherSimulator.step WeatherSimulator.init d0).humidity -
        WeatherSimulator.init.humidity| ≤ 1/2 ∧
      (∃ k : ℤ, (WeatherSimulator.step WeatherSimulator.init d0).temperature =
        (k : ℚ) / 10) ∧
      (∃ k : ℤ, (WeatherSimulator.step WeatherSimulator.init d0).humidity =
        (k : ℚ) / 10) ∧
      (d0.pc < 1/20 →
        (WeatherSimulator.step WeatherSimulator.init d0).condition =
          pyChoice WEATHER_CONDITIONS d0.cond) ∧
      (¬ d0.pc < 1/20 →
        (WeatherSimulator.step WeatherSimulator.init d0).condition =
          WeatherSimulator.init.condition) ∧
      (∀ k : ℕ, pyChoice WEATHER_CONDITIONS k ∈ WEATHER_CONDITIONS) ∧
      (∀ c ∈ WEATHER_CONDITIONS,
        ((List.range 4).filter (fun k => pyChoice WEATHER_CONDITIONS k = c)).length = 1) ∧
      (∃ k : ℕ, pyChoice WEATHER_CONDITIONS k =
        WeatherSimulator.init.condition)) :=
  ⟨⟨by norm_num [WeatherSimulator.init], by norm_num [WeatherSimulator.init]⟩,
   ⟨by norm_num [WeatherSimulator.init], by norm_num [WeatherSimulator.init]⟩,
   ⟨200, by norm_num [WeatherSimulator.init]⟩,
   ⟨500, by norm_num [WeatherSimulator.init]⟩,
   ⟨by norm_num [d0], by norm_num [d0]⟩,
   ⟨by norm_num [d0], by norm_num [d0]⟩,
   by simp [WeatherSimulator.init, WEATHER_CONDITIONS],
   C4_weather_step_spec WeatherSimulator.init d0
     ⟨by norm_num [WeatherSimulator.init], by norm_num [WeatherSimulator.init]⟩
     ⟨by norm_num [WeatherSimulator.init], by norm_num [WeatherSimulator.init]⟩
     ⟨200, by norm_num [WeatherSimulator.init]⟩
     ⟨500, by norm_num [WeatherSimulator.init]⟩
     ⟨by norm_num [d0], by norm_num [d0]⟩
     ⟨by norm_num [d0], by norm_num [d0]⟩
     (by simp [WeatherSimulator.init, WEATHER_CONDITIONS])⟩

/-- Appending strings concatenates their character data. -/
theorem string_data_append (s t : String) : (s ++ t).data = s.data ++ t.data := by
  cases s
  cases t
  rfl

/-- Decoding a digit character rendered from a digit below 10 recovers the
digit. -/
theorem decVal_decDigit (d : ℕ) (hd : d < 10) : decVal (decDigit d) = d := by
  interval_cases d <;> decide

/-- Decimal parsing is a left inverse of decimal rendering. -/
theorem decodeStr_decStr (n : ℕ) : decodeStr (decStr n) = n := by
  by_cases h : n = 0
  · subst h
    decide
  · rw [decStr, if_neg h]
    show Nat.ofDigits 10 ((((Nat.digits 10 n).reverse.map decDigit).map decVal).reverse) = n
    rw [List.map_map]
    have hmap : (Nat.digits 10 n).reverse.map (decVal ∘ decDigit) =
        (Nat.digits 10 n).reverse.map id := by
      apply List.map_congr_left
      intro d hd
      have hd10 : d < 10 :=
        Nat.digits_lt_base (by norm_num) (List.mem_reverse.mp hd)
      simp [decVal_decDigit d hd10]
    rw [hmap, List.map_id, List.reverse_reverse, Nat.ofDigits_digits]

/-- Decimal rendering is injective. -/
theorem decStr_injective : Function.Injective decStr :=
  Function.LeftInverse.injective decodeStr_decStr

/-- Extracting the numeric part of a rendered order identifier recovers the
counter value. -/
theorem orderIdNum_orderId (n : ℕ) : orderIdNum ("order_" ++ decStr n) = n := by
  rw [orderIdNum, string_data_append,
    show (6 : ℕ) = ("order_".data).length from rfl, List.drop_left]
  exact decodeStr_decStr n

/-- Two distinct counter values render to distinct order identifiers. -/
theorem orderId_injective (a b : ℕ)
    (h : "order_" ++ decStr a = "order_" ++ decStr b) : a = b := by
  have := congrArg orderIdNum h
  rwa [orderIdNum_orderId, orderIdNum_orderId] at this

/-- Every numeric id produced by a run is strictly above the counter value
the run started from. -/
theorem allocNums_gt (ops : List AllocOp) :
    ∀ (s : Option ℕ), ∀ n ∈ allocNums ops s, (load_last_order_id s).1 < n := by
  induction ops with
  | nil => intro s n hn; simp [allocNums] at hn
  | cons op ops ih =>
    intro s n hn
    cases op with
    | create =>
      cases s with
      | none =>
        simp only [allocNums, load_last_order_id, List.mem_cons] at hn ⊢
        rcases hn with h | h
        · omega
        · have h2 := ih (some 1) n h
          simp only [load_last_order_id] at h2
          omega
      | some c =>
        simp only [allocNums, load_last_order_id, List.mem_cons] at hn ⊢
        rcases hn with h | h
        · omega
        · have h2 := ih (some (c + 1)) n h
          simp only [load_last_order_id] at h2
          omega
    | restart =>
      simp only [allocNums] at hn
      exact ih s n hn

/-- The numeric ids of any run are strictly increasing. -/
theorem allocNums_pairwise (ops : List AllocOp) :
    ∀ s : Option ℕ, List.Pairwise (· < ·) (allocNums ops s) := by
  induction ops with
  | nil => intro s; simp [allocNums]
  | cons op ops ih =>
    intro s
    cases op with
    | create =>
      refine List.Pairwise.cons ?_ (ih _)
      intro n hn
      have h := allocNums_gt ops (some ((load_last_order_id s).1 + 1)) n hn
      simpa [load_last_order_id] using h
    | restart => exact ih s

/-- The identifiers returned by a run are the renderings of its numeric
ids. -/
theorem runAlloc_eq_map (ops : List AllocOp) :
    ∀ s : Option ℕ,
      (runAlloc ops s).1 = (allocNums ops s).map (fun n => "order_" ++ decStr n) := by
  induction ops with
  | nil => intro s; rfl
  | cons op ops ih =>
    intro s
    cases op with
    | create =>
      simp only [runAlloc, allocNums, next_order_id, save_last_order_id,
        List.map_cons]
      rw [ih]
    | restart =>
      simp only [runAlloc, allocNums]
      exact ih s

/-- C5: over any finite sequence of order creations, interleaved with any
number of simulated restarts (re-loads of the persisted counter), the
numeric counter values behind the returned identifiers are strictly
increasing, the identifiers are exactly those counters rendered as
order_ then digits, and the identifiers are pairwise distinct. -/
theorem C5_order_ids_unique_increasing (ops : List AllocOp) (s : Option ℕ) :
    List.Pairwise (· < ·) (allocNums ops s) ∧
    (runAlloc ops s).1 = (allocNums ops s).map (fun n => "order_" ++ decStr n) ∧
    List.Pairwise (· ≠ ·) (runAlloc ops s).1 := by
  refine ⟨allocNums_pairwise ops s, runAlloc_eq_map ops s, ?_⟩
  rw [runAlloc_eq_map ops s]
  refine List.Pairwise.map _ ?_ (allocNums_pairwise ops s)
  intro a b hab heq
  exact absurd (orderId_injective a b heq) (by omega)

/-- Timestamp of a record built by create_order. -/
theorem create_order_timestamp (ts : ℤ) (w : Weather) (s : Option ℕ)
    (d : OrderDraw) : ((create_order ts w s d).1).timestamp = ts := rfl

/-- Unfolding equation of the historical loop at positive fuel. -/
theorem historical_loop_succ (endT interval : ℤ) (g : ℕ → StepDraw) (fuel : ℕ)
    (ts : ℤ) (w : Weather) (s : Option ℕ) (i : ℕ) :
    historical_loop endT interval g (fuel + 1) ts w s i =
      if ts ≤ endT then
        match historical_loop endT interval g fuel (ts + interval)
            (WeatherSimulator.step w (g i).weather)
            (create_order ts (WeatherSimulator.step w (g i).weather) s (g i).order).2
            (i + 1) with
        | none => none
        | some rs =>
          some ((create_order ts (WeatherSimulator.step w (g i).weather) s
            (g i).order).1 :: rs)
      else some [] := rfl

/-- Unfolding equation of the timestamp skeleton at positive fuel. -/
theorem tsLoop_succ (f : ℕ) (ts endT iv : ℤ) :
    tsLoop (f + 1) ts endT iv =
      if ts ≤ endT then Option.map (fun l => ts :: l) (tsLoop f (ts + iv) endT iv)
      else some [] := rfl

/-- The timestamps of the records emitted by the historical loop are exactly
the timestamp skeleton, fuel for fuel. -/
theorem historical_loop_timestamps (endT iv : ℤ) (g : ℕ → StepDraw) :
    ∀ (f : ℕ) (ts : ℤ) (w : Weather) (s : Option ℕ) (i : ℕ),
      Option.map (List.map (fun r : OrderRecord => r.timestamp))
          (historical_loop endT iv g f ts w s i) = tsLoop f ts endT iv := by
  intro f
  induction f with
  | zero =>
    intro ts w s i
    by_cases h : ts ≤ endT <;> simp [historical_loop, tsLoop, h]
  | succ f ih =>
    intro ts w s i
    by_cases h : ts ≤ endT
    · rw [historical_loop_succ, if_pos h, tsLoop_succ, if_pos h,
        ← ih (ts + iv) (WeatherSimulator.step w (g i).weather)
          (create_order ts (WeatherSimulator.step w (g i).weather) s (g i).order).2
          (i + 1)]
      cases historical_loop endT iv g f (ts + iv)
          (WeatherSimulator.step w (g i).weather)
          (create_order ts (WeatherSimulator.step w (g i).weather) s (g i).order).2
          (i + 1) with
      | none => rfl
      | some rs => simp [create_order_timestamp]
    · rw [historical_loop_succ, if_neg h, tsLoop_succ, if_neg h]
      rfl

/-- C6: historical mode from second 0 to second 60 of 2025-01-01 with a
30-second interval (timestamps counted in seconds from
2025-01-01T00:00:00) emits, once the loop finishes, exactly 3 records,
with timestamps 0, 30 and 60 in that order, for every random draw stream
and initial counter state.  Fuel n + 3 covers every sufficient fuel. -/
theorem C6_historical_three_records (n : ℕ) (s : Option ℕ) (g : ℕ → StepDraw) :
    ∃ rs : List OrderRecord,
      historical_mode (n + 3) 0 60 30 s g = some rs ∧
      rs.length = 3 ∧
      rs.map (fun r => r.timestamp) = [0, 30, 60] := by
  have hstop : tsLoop n 90 60 30 = some [] := by
    cases n <;> simp [tsLoop]
  have hts : tsLoop (n + 3) 0 60 30 = some [0, 30, 60] := by
    rw [show n + 3 = (n + 2) + 1 from rfl, tsLoop_succ,
      if_pos (by norm_num : (0 : ℤ) ≤ 60), show (0 : ℤ) + 30 = 30 from by norm_num]
    rw [show n + 2 = (n + 1) + 1 from rfl, tsLoop_succ,
      if_pos (by norm_num : (30 : ℤ) ≤ 60), show (30 : ℤ) + 30 = 60 from by norm_num]
    rw [tsLoop_succ, if_pos (by norm_num : (60 : ℤ) ≤ 60),
      show (60 : ℤ) + 30 = 90 from by norm_num]
    rw [hstop]
    rfl
  have h := historical_loop_timestamps 60 30 g (n + 3) 0 WeatherSimulator.init s 0
  rw [hts] at h
  obtain ⟨rs, hrs, hmap⟩ := Option.map_eq_some'.mp h
  refine ⟨rs, hrs, ?_, hmap⟩
  have hlen := congrArg List.length hmap
  simpa using hlen

/-- For positive interval, the historical loop finishes once the fuel
exceeds the number of seconds left in the range. -/
theorem historical_loop_terminates (endT iv : ℤ) (g : ℕ → StepDraw)
    (hiv : 1 ≤ iv) :
    ∀ (f : ℕ) (ts : ℤ) (w : Weather) (s : Option ℕ) (i : ℕ),
      (endT - ts).toNat < f → (historical_loop endT iv g f ts w s i).isSome := by
  intro f
  induction f with
  | zero => intro ts w s i h; omega
  | succ f ih =>
    intro ts w s i h
    by_cases hts : ts ≤ endT
    · rw [historical_loop_succ, if_pos hts]
      match f, ih with
      | 0, _ =>
        have hgt : ¬ (ts + iv ≤ endT) := by omega
        simp [historical_loop, hgt]
      | f' + 1, ih =>
        have hrec := ih (ts + iv) (WeatherSimulator.step w (g i).weather)
          (create_order ts (WeatherSimulator.step w (g i).weather) s (g i).order).2
          (i + 1) (by omega)
        obtain ⟨rs, hrs⟩ := Option.isSome_iff_exists.mp hrec
        rw [hrs]
        rfl
    · rw [historical_loop_succ, if_neg hts]
      rfl

/-- C7 (amended): for every start not after end and every positive interval,
historical mode terminates, producing a finite record sequence; the original
claim quantified over every interval value the program accepts, and the
program accepts non-positive intervals, for which the loop does not
terminate. -/
theorem C7_historical_terminates (start endT iv : ℤ) (s : Option ℕ)
    (g : ℕ → StepDraw) (hse : start ≤ endT) (hiv : 1 ≤ iv) :
    ∃ f : ℕ, (historical_mode f start endT iv s g).isSome :=
  ⟨(endT - start).toNat + 1,
   historical_loop_terminates endT iv g hiv _ start WeatherSimulator.init s 0
     (by omega)⟩

/-- Witness for C7 at the concrete range of C6. -/
theorem C7_historical_terminates_witness :
    (0 : ℤ) ≤ 60 ∧ (1 : ℤ) ≤ 30 ∧
    ∃ f : ℕ, (historical_mode f 0 60 30 none gZero).isSome :=
  ⟨by norm_num, by norm_num,
   C7_historical_terminates 0 60 30 none gZero (by norm_num) (by norm_num)⟩

/-- Counterexample to C7 as stated: the program accepts interval 0 (argparse
only requires an integer), and with start = end = 0 and interval 0 the
historical loop never terminates: it is still running after every finite
number of iterations. -/
theorem C7_historical_nontermination_interval_zero :
    ¬ ∃ f : ℕ, (historical_mode f 0 0 0 none gZero).isSome := by
  rintro ⟨f, hf⟩
  have hnone : ∀ (f : ℕ) (w : Weather) (s : Option ℕ) (i : ℕ),
      historical_loop 0 0 gZero f 0 w s i = none := by
    intro f
    induction f with
    | zero => intro w s i; simp [historical_loop]
    | succ f ih =>
      intro w s i
      rw [historical_loop_succ, if_pos (by norm_num : (0 : ℤ) ≤ 0),
        show (0 : ℤ) + 0 = 0 from by norm_num, ih]
  rw [historical_mode, hnone] at hf
  simp at hf

end GenToa
